import Mathlib

/-!
Verification of the coregistration engine (`cate/ops/coregistration.py`).

The numeric code is embedded over `ℚ`.  A Python expression `x % p == 0`
(with `x`, `p` numpy floats) is modelled by `modIsZero x p`: for `p ≠ 0` it
holds exactly when `x / p` is an integer, and for `p = 0` numpy yields
`nan`, which compares unequal to `0`, so the test is `false`.
Out-of-bounds indexing (Python `IndexError`) is modelled by `Option` /
an explicit `indexError` result.
-/

namespace Coreg

/-- Model of the Python/numpy test `x % p == 0`. -/
def modIsZero (x p : ℚ) : Bool :=
  p != 0 && (x / p).den == 1

/-- Pixel size of an axis: `abs(array[1] - array[0])`. -/
def pxSize (a : List ℚ) : ℚ :=
  |a.getD 1 0 - a.getD 0 0|

/-- Embedding of `_is_equidistant(array)`: every consecutive absolute difference equals
the first one.  `none` models the `IndexError` raised on `array[1]` when the
axis has fewer than 2 elements. -/
def isEquidistant (a : List ℚ) : Option Bool :=
  if a.length < 2 then none
  else
    some ((List.range (a.length - 1)).all fun i =>
      |a.getD (i + 1) 0 - a.getD i 0| == pxSize a)

/-- Embedding of `_is_pixel_registered(array, origin)`:
`((array[0] - step/2) - origin) % step == 0` with `step = abs(array[1]-array[0])`. -/
def isPixelRegistered (a : List ℚ) (origin : ℚ) : Option Bool :=
  if a.length < 2 then none
  else some (modIsZero (a.getD 0 0 - pxSize a / 2 - origin) (pxSize a))

/-- Embedding of `_within_bounds(array, low_bound)`:
`array[0] >= low_bound and array[-1] <= abs(low_bound)`. -/
def withinBounds (a : List ℚ) (lowBound : ℚ) : Option Bool :=
  if a.length < 1 then none
  else some (decide (lowBound ≤ a.getD 0 0) && decide (a.getLastD 0 ≤ |lowBound|))

/-- Embedding of `_is_valid_array(array)`: exactly three dimensions named time/lat/lon. -/
def isValidArray (dims : List String) : Bool :=
  dims.length == 3 && dims.contains "time" && dims.contains "lat" && dims.contains "lon"

/-- Loop guard of the lower snapping loop of `_find_intersection`
(negated): `(minimum - global_bounds[0]) % px == 0` for either axis. -/
def alignedLow (px1 px2 glow v : ℚ) : Bool :=
  modIsZero (v - glow) px1 || modIsZero (v - glow) px2

/-- Loop guard of the upper snapping loop of `_find_intersection`
(negated): `(global_bounds[1] - maximum) % px == 0` for either axis. -/
def alignedHigh (px1 px2 ghigh v : ℚ) : Bool :=
  modIsZero (ghigh - v) px1 || modIsZero (ghigh - v) px2

/-- Lower snapping loop of `_find_intersection`: increase `v` by `finer`
until the guard exits; `fuel` counts the remaining allowed increments
(the `safety` counter starts at 100), `none` models the safety `ValueError`. -/
def snapUp (px1 px2 finer glow : ℚ) : ℚ → Nat → Option ℚ
  | v, 0 => if alignedLow px1 px2 glow v then some v else none
  | v, n + 1 =>
    if alignedLow px1 px2 glow v then some v
    else snapUp px1 px2 finer glow (v + finer) n

/-- Upper snapping loop of `_find_intersection`: decrease `v` by `finer`. -/
def snapDown (px1 px2 finer ghigh : ℚ) : ℚ → Nat → Option ℚ
  | v, 0 => if alignedHigh px1 px2 ghigh v then some v else none
  | v, n + 1 =>
    if alignedHigh px1 px2 ghigh v then some v
    else snapDown px1 px2 finer ghigh (v - finer) n

/-- Initial `minimum` of `_find_intersection`. -/
def initMin (first second : List ℚ) : ℚ :=
  max (first.getD 0 0 - pxSize first / 2) (second.getD 0 0 - pxSize second / 2)

/-- Initial `maximum` of `_find_intersection`. -/
def initMax (first second : List ℚ) : ℚ :=
  min (first.getLastD 0 + pxSize first / 2) (second.getLastD 0 + pxSize second / 2)

/-- Result of `_find_intersection`: a bounds pair, the
`ValueError('Could not find a valid intersection ...')`, or an
`IndexError` from indexing an axis with fewer than 2 elements. -/
inductive FIResult where
  | ok (lo hi : ℚ)
  | noIntersection
  | indexError
deriving DecidableEq

/-- Embedding of `_find_intersection(first, second, global_bounds)`. -/
def findIntersection (first second : List ℚ) (glow ghigh : ℚ) : FIResult :=
  if first.length < 2 ∨ second.length < 2 then .indexError
  else
    let px1 := pxSize first
    let px2 := pxSize second
    let minimum := initMin first second
    let maximum := initMax first second
    if maximum - minimum < max px1 px2 then .noIntersection
    else
      let finer := min px1 px2
      match snapUp px1 px2 finer glow minimum 100 with
      | none => .noIntersection
      | some m =>
        match snapDown px1 px2 finer ghigh maximum 100 with
        | none => .noIntersection
        | some M => if M ≤ m then .noIntersection else .ok m M

/-- A slave variable as seen by the validation phase of `coregister`:
its name and dimension names. -/
structure VarInfo where
  name : String
  dims : List String
deriving DecidableEq

/-- The `ValueError`s raised by the validation phase of `coregister`,
carrying exactly the data interpolated into each message, plus the
`IndexError` a too-short axis would raise inside a validator. -/
inductive CoregError where
  | boundsError (ds : String) (low a0 alast : ℚ)
  | notEquidistant (ds : String)
  | notPixelRegistered (ds : String)
  | invalidVariable (name : String) (dims : List String)
  | indexError
deriving DecidableEq

/-- The arguments `coregister` hands to `_resample_dataset` once all
checks have passed; reaching this marker models "resampling begins". -/
structure ResampleCall where
  masterLat : List ℚ
  masterLon : List ℚ
  slaveLat : List ℚ
  slaveLon : List ℚ
  vars : List VarInfo
deriving DecidableEq

/-- The three grid checks run by `coregister` for one `(name, array, bound)`
triple, in source order: bounds, equidistance, pixel registration. -/
def checkGrid (ds : String) (a : List ℚ) (low : ℚ) : Option CoregError :=
  match withinBounds a low with
  | none => some .indexError
  | some false => some (.boundsError ds low (a.getD 0 0) (a.getLastD 0))
  | some true =>
    match isEquidistant a with
    | none => some .indexError
    | some false => some (.notEquidistant ds)
    | some true =>
      match isPixelRegistered a low with
      | none => some .indexError
      | some false => some (.notPixelRegistered ds)
      | some true => none

/-- The per-variable shape check loop of `coregister`. -/
def checkVars : List VarInfo → Option CoregError
  | [] => none
  | v :: rest =>
    if isValidArray v.dims then checkVars rest
    else some (.invalidVariable v.name v.dims)

/-- The `grids` tuple of `coregister`, in source order:
slave lat, slave lon, master lat, master lon. -/
def gridsOf (masterLat masterLon slaveLat slaveLon : List ℚ) :
    List (String × List ℚ × ℚ) :=
  [("slave", slaveLat, -90), ("slave", slaveLon, -180),
   ("master", masterLat, -90), ("master", masterLon, -180)]

/-- Validation phase of `coregister`: run the grid checks over the four
axes in source order, then the variable-shape check over every slave
variable; only if everything passes is `_resample_dataset` invoked
(modelled by the `ResampleCall` marker). -/
def coregister (masterLat masterLon slaveLat slaveLon : List ℚ)
    (slaveVars : List VarInfo) : Except CoregError ResampleCall :=
  match checkGrid "slave" slaveLat (-90) with
  | some e => .error e
  | none =>
  match checkGrid "slave" slaveLon (-180) with
  | some e => .error e
  | none =>
  match checkGrid "master" masterLat (-90) with
  | some e => .error e
  | none =>
  match checkGrid "master" masterLon (-180) with
  | some e => .error e
  | none =>
  match checkVars slaveVars with
  | some e => .error e
  | none => .ok ⟨masterLat, masterLon, slaveLat, slaveLon, slaveVars⟩

/-- An `xr.DataArray` as far as `_resample_array` observes and rebuilds it:
name, dimension names, attributes, the three coordinate axes and the
time-major data cube. -/
structure DataArray where
  name : String
  dims : List String
  attrs : List (String × String)
  time : List ℚ
  lat : List ℚ
  lon : List ℚ
  data : List (List (List ℚ))

/-- Embedding of `_resample_array(array, lon, lat, method_us, method_ds, ...)`: resample
each time slice through the external kernel (`resample2d`, taking a slice,
the target width `lon.size`, height `lat.size` and the two method codes),
then rebuild the array with the original name, dims, attrs and time
coordinate and the supplied target lat/lon axes. -/
def resampleArray (resample2d : List (List ℚ) → Nat → Nat → Nat → Nat → List (List ℚ))
    (array : DataArray) (lon lat : List ℚ) (methodUs methodDs : Nat) : DataArray :=
  let width := lon.length
  let height := lat.length
  { name := array.name
    dims := array.dims
    attrs := array.attrs
    time := array.time
    lat := lat
    lon := lon
    data := array.data.map fun slice => resample2d slice width height methodDs methodUs }

/-- Mathematical equidistance of an axis (what `_is_equidistant` decides). -/
def EquidistantP (a : List ℚ) : Prop :=
  ∀ i : Nat, i + 1 < a.length → |a.getD (i + 1) 0 - a.getD i 0| = pxSize a

/-- Mathematical pixel registration of an axis relative to an origin
(what `_is_pixel_registered` decides). -/
def PixelRegisteredP (a : List ℚ) (origin : ℚ) : Prop :=
  pxSize a ≠ 0 ∧ ∃ k : ℤ, a.getD 0 0 - pxSize a / 2 - origin = k * pxSize a

/-- Mathematical bound containment of an axis (what `_within_bounds` decides). -/
def WithinBoundsP (a : List ℚ) (lowBound : ℚ) : Prop :=
  lowBound ≤ a.getD 0 0 ∧ a.getLastD 0 ≤ |lowBound|

/-- Test axis: latitudes −89.5, −88.5 (step 1, registered to −90). -/
def axLat : List ℚ := [-179/2, -177/2]

/-- Test axis: longitudes −179.5, −178.5 (step 1, registered to −180). -/
def axLon : List ℚ := [-359/2, -357/2]

/-- Test axis lying outside the global latitude bounds: −99.5, −98.5. -/
def axOut : List ℚ := [-199/2, -197/2]

/-- Test axis lying outside the global latitude bounds: −100.5, −99.5. -/
def axOut2 : List ℚ := [-201/2, -199/2]

/-- Test latitude axis that is within bounds but not equidistant. -/
def axNonEq : List ℚ := [-179/2, -177/2, -173/2]

/-- Test longitude axis that is within bounds but not equidistant. -/
def axNonEqLon : List ℚ := [-359/2, -357/2, -353/2]

/-- Test latitude axis that is equidistant, registered and in bounds but
not monotonic: −88.5, −89.5, −88.5. -/
def axNonMono : List ℚ := [-177/2, -179/2, -177/2]

lemma modIsZero_iff {x p : ℚ} :
    modIsZero x p = true ↔ p ≠ 0 ∧ ∃ k : ℤ, x = k * p := by
  unfold modIsZero
  rw [Bool.and_eq_true, bne_iff_ne, beq_iff_eq]
  constructor
  · rintro ⟨hp, hden⟩
    refine ⟨hp, (x / p).num, ?_⟩
    have hx : ((x / p).num : ℚ) = x / p := Rat.coe_int_num_of_den_eq_one hden
    rw [hx]
    field_simp
  · rintro ⟨hp, k, rfl⟩
    refine ⟨hp, ?_⟩
    rw [mul_div_assoc, div_self hp, mul_one, Rat.den_intCast]

lemma modIsZero_self_add {x p : ℚ} :
    modIsZero (x + p) p = modIsZero x p := by
  rcases eq_or_ne p 0 with rfl | hp
  · simp
  · rcases Bool.eq_false_or_eq_true (modIsZero x p) with h | h
    · rw [h]
      rcases modIsZero_iff.mp h with ⟨-, k, hk⟩
      exact modIsZero_iff.mpr ⟨hp, k + 1, by push_cast; linarith⟩
    · rw [h, Bool.eq_false_iff]
      intro hc
      rcases modIsZero_iff.mp hc with ⟨-, k, hk⟩
      have hx : x = ((k - 1 : ℤ) : ℚ) * p := by push_cast; linarith
      have ht : modIsZero x p = true := modIsZero_iff.mpr ⟨hp, k - 1, hx⟩
      rw [h] at ht
      exact Bool.false_ne_true ht

/-- A nonzero quantity strictly smaller than `|p|` is not a multiple of `p`. -/
lemma modIsZero_eq_false_of_small {x p : ℚ} (hx : x ≠ 0) (h : |x| < |p|) :
    modIsZero x p = false := by
  rw [Bool.eq_false_iff]
  intro hc
  rcases modIsZero_iff.mp hc with ⟨hp, k, rfl⟩
  have hk : k ≠ 0 := by
    rintro rfl
    simp at hx
  have h1 : (1 : ℚ) ≤ |(k : ℚ)| := by
    rw [← abs_one]
    exact_mod_cast Int.one_le_abs (by exact_mod_cast hk)
  have : |p| ≤ |(k : ℚ) * p| := by
    rw [abs_mul]
    nlinarith [abs_nonneg p, abs_nonneg ((k : ℚ) * p)]
  linarith

lemma snapUp_eq_some (px1 px2 finer glow : ℚ) :
    ∀ (n : Nat) (v w : ℚ), snapUp px1 px2 finer glow v n = some w →
      ∃ j : Nat, j ≤ n ∧ w = v + j * finer ∧
        alignedLow px1 px2 glow w = true ∧
        ∀ k : Nat, k < j → alignedLow px1 px2 glow (v + k * finer) = false := by
  intro n
  induction n with
  | zero =>
    intro v w h
    rw [snapUp] at h
    split at h
    · rename_i hal
      cases h
      exact ⟨0, le_refl 0, by push_cast; ring, hal, fun k hk => absurd hk (Nat.not_lt_zero k)⟩
    · cases h
  | succ n ih =>
    intro v w h
    rw [snapUp] at h
    split at h
    · rename_i hal
      cases h
      exact ⟨0, Nat.zero_le _, by push_cast; ring, hal, fun k hk => absurd hk (Nat.not_lt_zero k)⟩
    · rename_i hal
      rcases ih (v + finer) w h with ⟨j, hj, hw, hal2, hmin⟩
      refine ⟨j + 1, by omega, by push_cast at hw ⊢; linarith, hal2, ?_⟩
      intro k hk
      cases k with
      | zero =>
        simpa using Bool.eq_false_iff.mpr hal
      | succ k =>
        have := hmin k (by omega)
        have harith : v + finer + (k : ℚ) * finer = v + ((k : ℕ) + 1 : ℚ) * finer := by ring
        rw [harith] at this
        simpa using this

lemma snapUp_eq_none (px1 px2 finer glow : ℚ) :
    ∀ (n : Nat) (v : ℚ), snapUp px1 px2 finer glow v n = none ↔
      ∀ j : Nat, j ≤ n → alignedLow px1 px2 glow (v + j * finer) = false := by
  intro n
  induction n with
  | zero =>
    intro v
    rw [snapUp]
    constructor
    · intro h j hj
      interval_cases j
      split at h
      · cases h
      · simpa using Bool.eq_false_iff.mpr (by assumption)
    · intro h
      have := h 0 (le_refl 0)
      simp only [Nat.cast_zero, zero_mul, add_zero] at this
      rw [this]
      simp
  | succ n ih =>
    intro v
    rw [snapUp]
    split
    · rename_i hal
      simp only [reduceCtorEq, false_iff]
      intro h
      have := h 0 (Nat.zero_le _)
      simp only [Nat.cast_zero, zero_mul, add_zero] at this
      rw [hal] at this
      simp at this
    · rename_i hal
      rw [ih (v + finer)]
      constructor
      · intro h j hj
        cases j with
        | zero => simpa using Bool.eq_false_iff.mpr hal
        | succ j =>
          have := h j (by omega)
          have harith : v + finer + (j : ℚ) * finer = v + ((j : ℕ) + 1 : ℚ) * finer := by ring
          rw [harith] at this
          simpa using this
      · intro h j hj
        have hx := h (j + 1) (by omega)
        push_cast at hx
        have harith : v + ((j : ℚ) + 1) * finer = v + finer + (j : ℚ) * finer := by ring
        rw [harith] at hx
        exact hx

lemma snapDown_eq_some (px1 px2 finer ghigh : ℚ) :
    ∀ (n : Nat) (v w : ℚ), snapDown px1 px2 finer ghigh v n = some w →
      ∃ j : Nat, j ≤ n ∧ w = v - j * finer ∧
        alignedHigh px1 px2 ghigh w = true ∧
        ∀ k : Nat, k < j → alignedHigh px1 px2 ghigh (v - k * finer) = false := by
  intro n
  induction n with
  | zero =>
    intro v w h
    rw [snapDown] at h
    split at h
    · rename_i hal
      cases h
      exact ⟨0, le_refl 0, by push_cast; ring, hal, fun k hk => absurd hk (Nat.not_lt_zero k)⟩
    · cases h
  | succ n ih =>
    intro v w h
    rw [snapDown] at h
    split at h
    · rename_i hal
      cases h
      exact ⟨0, Nat.zero_le _, by push_cast; ring, hal, fun k hk => absurd hk (Nat.not_lt_zero k)⟩
    · rename_i hal
      rcases ih (v - finer) w h with ⟨j, hj, hw, hal2, hmin⟩
      refine ⟨j + 1, by omega, by push_cast at hw ⊢; linarith, hal2, ?_⟩
      intro k hk
      cases k with
      | zero =>
        simpa using Bool.eq_false_iff.mpr hal
      | succ k =>
        have := hmin k (by omega)
        have harith : v - finer - (k : ℚ) * finer = v - ((k : ℕ) + 1 : ℚ) * finer := by ring
        rw [harith] at this
        simpa using this

lemma snapDown_eq_none (px1 px2 finer ghigh : ℚ) :
    ∀ (n : Nat) (v : ℚ), snapDown px1 px2 finer ghigh v n = none ↔
      ∀ j : Nat, j ≤ n → alignedHigh px1 px2 ghigh (v - j * finer) = false := by
  intro n
  induction n with
  | zero =>
    intro v
    rw [snapDown]
    constructor
    · intro h j hj
      interval_cases j
      split at h
      · cases h
      · simpa using Bool.eq_false_iff.mpr (by assumption)
    · intro h
      have := h 0 (le_refl 0)
      simp only [Nat.cast_zero, zero_mul, sub_zero] at this
      rw [this]
      simp
  | succ n ih =>
    intro v
    rw [snapDown]
    split
    · rename_i hal
      simp only [reduceCtorEq, false_iff]
      intro h
      have := h 0 (Nat.zero_le _)
      simp only [Nat.cast_zero, zero_mul, sub_zero] at this
      rw [hal] at this
      simp at this
    · rename_i hal
      rw [ih (v - finer)]
      constructor
      · intro h j hj
        cases j with
        | zero => simpa using Bool.eq_false_iff.mpr hal
        | succ j =>
          have := h j (by omega)
          have harith : v - finer - (j : ℚ) * finer = v - ((j : ℕ) + 1 : ℚ) * finer := by ring
          rw [harith] at this
          simpa using this
      · intro h j hj
        have hx := h (j + 1) (by omega)
        push_cast at hx
        have harith : v - ((j : ℚ) + 1) * finer = v - finer - (j : ℚ) * finer := by ring
        rw [harith] at hx
        exact hx

/-- When the entry value is already aligned, the lower loop returns it at
once, for any remaining fuel. -/
lemma snapUp_exit {px1 px2 finer glow v : ℚ}
    (h : alignedLow px1 px2 glow v = true) :
    ∀ n : Nat, snapUp px1 px2 finer glow v n = some v
  | 0 => by rw [snapUp, if_pos h]
  | n + 1 => by rw [snapUp, if_pos h]

/-- When the entry value is already aligned, the upper loop returns it at
once, for any remaining fuel. -/
lemma snapDown_exit {px1 px2 finer ghigh v : ℚ}
    (h : alignedHigh px1 px2 ghigh v = true) :
    ∀ n : Nat, snapDown px1 px2 finer ghigh v n = some v
  | 0 => by rw [snapDown, if_pos h]
  | n + 1 => by rw [snapDown, if_pos h]

/-- Divisibility by `p` is invariant under adding a natural multiple of `p`. -/
lemma modIsZero_add_nat_mul (x p : ℚ) (j : Nat) :
    modIsZero (x + j * p) p = modIsZero x p := by
  induction j with
  | zero => norm_num
  | succ j ih =>
    have h : x + ((j : ℚ) + 1) * p = x + (j : ℚ) * p + p := by ring
    push_cast
    rw [h, modIsZero_self_add, ih]

/-- Inversion: everything that must have happened for `_find_intersection`
to return a pair. -/
lemma findIntersection_ok_inv {first second : List ℚ} {glow ghigh m M : ℚ}
    (h : findIntersection first second glow ghigh = .ok m M) :
    2 ≤ first.length ∧ 2 ≤ second.length ∧
    max (pxSize first) (pxSize second) ≤ initMax first second - initMin first second ∧
    snapUp (pxSize first) (pxSize second) (min (pxSize first) (pxSize second)) glow
      (initMin first second) 100 = some m ∧
    snapDown (pxSize first) (pxSize second) (min (pxSize first) (pxSize second)) ghigh
      (initMax first second) 100 = some M ∧
    m < M := by
  unfold findIntersection at h
  split at h
  · cases h
  · rename_i hlen
    push_neg at hlen
    dsimp only at h
    split at h
    · cases h
    · rename_i hdelta
      push_neg at hdelta
      split at h
      · cases h
      · rename_i m' hsu
        split at h
        · cases h
        · rename_i M' hsd
          split at h
          · cases h
          · rename_i hMm
            push_neg at hMm
            cases h
            exact ⟨by omega, by omega, hdelta, hsu, hsd, hMm⟩

lemma alignedLow_swap (px1 px2 glow v : ℚ) :
    alignedLow px2 px1 glow v = alignedLow px1 px2 glow v := by
  unfold alignedLow
  exact Bool.or_comm _ _

lemma alignedHigh_swap (px1 px2 ghigh v : ℚ) :
    alignedHigh px2 px1 ghigh v = alignedHigh px1 px2 ghigh v := by
  unfold alignedHigh
  exact Bool.or_comm _ _

lemma snapUp_swap (px1 px2 finer glow : ℚ) :
    ∀ (n : Nat) (v : ℚ),
      snapUp px2 px1 finer glow v n = snapUp px1 px2 finer glow v n := by
  intro n
  induction n with
  | zero => intro v; rw [snapUp, snapUp, alignedLow_swap]
  | succ n ih => intro v; rw [snapUp, snapUp, alignedLow_swap, ih]

lemma snapDown_swap (px1 px2 finer ghigh : ℚ) :
    ∀ (n : Nat) (v : ℚ),
      snapDown px2 px1 finer ghigh v n = snapDown px1 px2 finer ghigh v n := by
  intro n
  induction n with
  | zero => intro v; rw [snapDown, snapDown, alignedHigh_swap]
  | succ n ih => intro v; rw [snapDown, snapDown, alignedHigh_swap, ih]

lemma initMin_comm (first second : List ℚ) :
    initMin second first = initMin first second :=
  max_comm _ _

lemma initMax_comm (first second : List ℚ) :
    initMax second first = initMax first second :=
  min_comm _ _

/-- C3: `_find_intersection` is commutative in its first two arguments:
for all axes `first`, `second` and global bounds, exchanging the two axes
yields the same outcome (the same pair, or the same error). -/
theorem findIntersection_comm (first second : List ℚ) (glow ghigh : ℚ) :
    findIntersection first second glow ghigh =
      findIntersection second first glow ghigh := by
  by_cases hg : first.length < 2 ∨ second.length < 2
  · unfold findIntersection
    rw [if_pos hg, if_pos (Or.symm hg)]
  · unfold findIntersection
    rw [if_neg hg, if_neg (fun h => hg (Or.symm h))]
    dsimp only
    simp only [initMin_comm first second, initMax_comm first second,
      max_comm (pxSize second) (pxSize first), min_comm (pxSize second) (pxSize first),
      snapUp_swap (pxSize first) (pxSize second), snapDown_swap (pxSize first) (pxSize second)]

/-- C1: over any two axes with at least two elements, `_find_intersection`
snaps the initial minimum upward in increments of `min(firstPx, secondPx)`
until `(minimum - glow) mod firstPx == 0` or `mod secondPx == 0`, and the
initial maximum symmetrically downward against `ghigh`, in each case
raising the intersection error when no aligned point is reached within the
100-iteration safety cap: a returned pair consists of the first aligned
points of the two stepped sequences, and if either sequence has no aligned
point among steps `0..100` the result is the intersection error. -/
theorem findIntersection_snapping (first second : List ℚ) (glow ghigh : ℚ)
    (h1 : 2 ≤ first.length) (h2 : 2 ≤ second.length) :
    (∀ m M, findIntersection first second glow ghigh = .ok m M →
      ∃ j k : Nat, j ≤ 100 ∧ k ≤ 100 ∧
        m = initMin first second + j * min (pxSize first) (pxSize second) ∧
        M = initMax first second - k * min (pxSize first) (pxSize second) ∧
        alignedLow (pxSize first) (pxSize second) glow m = true ∧
        alignedHigh (pxSize first) (pxSize second) ghigh M = true ∧
        (∀ j' : Nat, j' < j →
          alignedLow (pxSize first) (pxSize second) glow
            (initMin first second + j' * min (pxSize first) (pxSize second)) = false) ∧
        (∀ k' : Nat, k' < k →
          alignedHigh (pxSize first) (pxSize second) ghigh
            (initMax first second - k' * min (pxSize first) (pxSize second)) = false)) ∧
    ((∀ j : Nat, j ≤ 100 →
        alignedLow (pxSize first) (pxSize second) glow
          (initMin first second + j * min (pxSize first) (pxSize second)) = false) →
      findIntersection first second glow ghigh = .noIntersection) ∧
    ((∀ k : Nat, k ≤ 100 →
        alignedHigh (pxSize first) (pxSize second) ghigh
          (initMax first second - k * min (pxSize first) (pxSize second)) = false) →
      findIntersection first second glow ghigh = .noIntersection) := by
  have hg : ¬(first.length < 2 ∨ second.length < 2) := by omega
  refine ⟨?_, ?_, ?_⟩
  · intro m M h
    obtain ⟨-, -, -, hsu, hsd, -⟩ := findIntersection_ok_inv h
    obtain ⟨j, hj, hm, halm, hminm⟩ := snapUp_eq_some _ _ _ _ _ _ _ hsu
    obtain ⟨k, hk, hM, halM, hminM⟩ := snapDown_eq_some _ _ _ _ _ _ _ hsd
    exact ⟨j, k, hj, hk, hm, hM, halm, halM, hminm, hminM⟩
  · intro hall
    have hsu := (snapUp_eq_none (pxSize first) (pxSize second)
      (min (pxSize first) (pxSize second)) glow 100 (initMin first second)).mpr hall
    unfold findIntersection
    rw [if_neg hg]
    dsimp only
    by_cases hd : initMax first second - initMin first second <
        max (pxSize first) (pxSize second)
    · rw [if_pos hd]
    · rw [if_neg hd]
      simp only [hsu]
  · intro hall
    have hsd := (snapDown_eq_none (pxSize first) (pxSize second)
      (min (pxSize first) (pxSize second)) ghigh 100 (initMax first second)).mpr hall
    unfold findIntersection
    rw [if_neg hg]
    dsimp only
    by_cases hd : initMax first second - initMin first second <
        max (pxSize first) (pxSize second)
    · rw [if_pos hd]
    · rw [if_neg hd]
      rcases hsu : snapUp (pxSize first) (pxSize second)
          (min (pxSize first) (pxSize second)) glow (initMin first second) 100 with - | m
      · simp only [hsu]
      · simp only [hsu, hsd]

/-- Witness for C1: the theorem applied to the concrete equal one-degree
axes −89.5, −88.5 with global bounds (−90, 90). -/
theorem findIntersection_snapping_witness :
    (∀ m M, findIntersection axLat axLat (-90) 90 = .ok m M →
      ∃ j k : Nat, j ≤ 100 ∧ k ≤ 100 ∧
        m = initMin axLat axLat + j * min (pxSize axLat) (pxSize axLat) ∧
        M = initMax axLat axLat - k * min (pxSize axLat) (pxSize axLat) ∧
        alignedLow (pxSize axLat) (pxSize axLat) (-90) m = true ∧
        alignedHigh (pxSize axLat) (pxSize axLat) 90 M = true ∧
        (∀ j' : Nat, j' < j →
          alignedLow (pxSize axLat) (pxSize axLat) (-90)
            (initMin axLat axLat + j' * min (pxSize axLat) (pxSize axLat)) = false) ∧
        (∀ k' : Nat, k' < k →
          alignedHigh (pxSize axLat) (pxSize axLat) 90
            (initMax axLat axLat - k' * min (pxSize axLat) (pxSize axLat)) = false)) ∧
    ((∀ j : Nat, j ≤ 100 →
        alignedLow (pxSize axLat) (pxSize axLat) (-90)
          (initMin axLat axLat + j * min (pxSize axLat) (pxSize axLat)) = false) →
      findIntersection axLat axLat (-90) 90 = .noIntersection) ∧
    ((∀ k : Nat, k ≤ 100 →
        alignedHigh (pxSize axLat) (pxSize axLat) 90
          (initMax axLat axLat - k * min (pxSize axLat) (pxSize axLat)) = false) →
      findIntersection axLat axLat (-90) 90 = .noIntersection) :=
  findIntersection_snapping axLat axLat (-90) 90 (by decide) (by decide)

/-- C2: over axes with at least two elements, `_find_intersection` raises
the intersection error exactly when the initial overlap is smaller than the
coarser pixel (`maximum - minimum < max(firstPx, secondPx)`), or one of the
two snapping loops exhausts its 100-iteration safety bound, or the snapped
bounds collapse (`maximum <= minimum`); in every other case it returns a
pair. -/
theorem findIntersection_error_cases (first second : List ℚ) (glow ghigh : ℚ)
    (h1 : 2 ≤ first.length) (h2 : 2 ≤ second.length) :
    (findIntersection first second glow ghigh = .noIntersection ↔
      (initMax first second - initMin first second <
          max (pxSize first) (pxSize second) ∨
        snapUp (pxSize first) (pxSize second) (min (pxSize first) (pxSize second))
          glow (initMin first second) 100 = none ∨
        snapDown (pxSize first) (pxSize second) (min (pxSize first) (pxSize second))
          ghigh (initMax first second) 100 = none ∨
        ∃ m M,
          snapUp (pxSize first) (pxSize second) (min (pxSize first) (pxSize second))
            glow (initMin first second) 100 = some m ∧
          snapDown (pxSize first) (pxSize second) (min (pxSize first) (pxSize second))
            ghigh (initMax first second) 100 = some M ∧
          M ≤ m)) ∧
    (findIntersection first second glow ghigh ≠ .noIntersection →
      ∃ m M, findIntersection first second glow ghigh = .ok m M) := by
  have hg : ¬(first.length < 2 ∨ second.length < 2) := by omega
  by_cases hd : initMax first second - initMin first second <
      max (pxSize first) (pxSize second)
  · have hres : findIntersection first second glow ghigh = .noIntersection := by
      unfold findIntersection
      rw [if_neg hg]
      dsimp only
      rw [if_pos hd]
    exact ⟨⟨fun _ => Or.inl hd, fun _ => hres⟩, fun hne => absurd hres hne⟩
  · rcases hsu : snapUp (pxSize first) (pxSize second)
        (min (pxSize first) (pxSize second)) glow (initMin first second) 100 with - | m
    · have hres : findIntersection first second glow ghigh = .noIntersection := by
        unfold findIntersection
        rw [if_neg hg]
        dsimp only
        rw [if_neg hd]
        simp only [hsu]
      exact ⟨⟨fun _ => Or.inr (Or.inl rfl), fun _ => hres⟩, fun hne => absurd hres hne⟩
    · rcases hsd : snapDown (pxSize first) (pxSize second)
          (min (pxSize first) (pxSize second)) ghigh (initMax first second) 100 with - | M
      · have hres : findIntersection first second glow ghigh = .noIntersection := by
          unfold findIntersection
          rw [if_neg hg]
          dsimp only
          rw [if_neg hd]
          simp only [hsu, hsd]
        exact ⟨⟨fun _ => Or.inr (Or.inr (Or.inl rfl)), fun _ => hres⟩,
          fun hne => absurd hres hne⟩
      · by_cases hMm : M ≤ m
        · have hres : findIntersection first second glow ghigh = .noIntersection := by
            unfold findIntersection
            rw [if_neg hg]
            dsimp only
            rw [if_neg hd]
            simp only [hsu, hsd]
            rw [if_pos hMm]
          exact ⟨⟨fun _ => Or.inr (Or.inr (Or.inr ⟨m, M, rfl, rfl, hMm⟩)),
            fun _ => hres⟩, fun hne => absurd hres hne⟩
        · have hres : findIntersection first second glow ghigh = .ok m M := by
            unfold findIntersection
            rw [if_neg hg]
            dsimp only
            rw [if_neg hd]
            simp only [hsu, hsd]
            rw [if_neg hMm]
          refine ⟨⟨fun h => ?_, fun hOr => ?_⟩, fun _ => ⟨m, M, hres⟩⟩
          · rw [hres] at h
            cases h
          · exfalso
            rcases hOr with hOr | hOr | hOr | ⟨m', M', hsu', hsd', hMm'⟩
            · exact hd hOr
            · cases hOr
            · cases hOr
            · cases hsu'
              cases hsd'
              exact hMm hMm'

/-- Witness for C2: the theorem applied to the concrete equal one-degree
axes −89.5, −88.5 with global bounds (−90, 90). -/
theorem findIntersection_error_cases_witness :
    (findIntersection axLat axLat (-90) 90 = .noIntersection ↔
      (initMax axLat axLat - initMin axLat axLat <
          max (pxSize axLat) (pxSize axLat) ∨
        snapUp (pxSize axLat) (pxSize axLat) (min (pxSize axLat) (pxSize axLat))
          (-90) (initMin axLat axLat) 100 = none ∨
        snapDown (pxSize axLat) (pxSize axLat) (min (pxSize axLat) (pxSize axLat))
          90 (initMax axLat axLat) 100 = none ∨
        ∃ m M,
          snapUp (pxSize axLat) (pxSize axLat) (min (pxSize axLat) (pxSize axLat))
            (-90) (initMin axLat axLat) 100 = some m ∧
          snapDown (pxSize axLat) (pxSize axLat) (min (pxSize axLat) (pxSize axLat))
            90 (initMax axLat axLat) 100 = some M ∧
          M ≤ m)) ∧
    (findIntersection axLat axLat (-90) 90 ≠ .noIntersection →
      ∃ m M, findIntersection axLat axLat (-90) 90 = .ok m M) :=
  findIntersection_error_cases axLat axLat (-90) 90 (by decide) (by decide)

/-- C4 counterexample: on the axis −99.5, −98.5 (used as both arguments)
with global bounds (−90, 90), `_find_intersection` returns (−100, −98),
whose minimum lies strictly below the global lower bound — the output is
not contained in `globalBounds`. -/
theorem findIntersection_bounds_cex :
    findIntersection axOut axOut (-90) 90 = FIResult.ok (-100) (-98) ∧
      ((-100 : ℚ) < -90) := by
  constructor
  · have hpx : pxSize axOut = 1 := by norm_num [pxSize, axOut, abs]
    have hmin : initMin axOut axOut = -100 := by
      norm_num [initMin, axOut, pxSize, abs]
    have hmax : initMax axOut axOut = -98 := by
      norm_num [initMax, axOut, pxSize, abs]
    unfold findIntersection
    rw [if_neg (by decide)]
    dsimp only
    rw [hpx, hmin, hmax]
    rw [if_neg (by norm_num)]
    simp only
      [snapUp_exit (show alignedLow 1 1 (-90) (-100) = true by
          norm_num [alignedLow, modIsZero]),
        snapDown_exit (show alignedHigh 1 1 90 (-98) = true by
          norm_num [alignedHigh, modIsZero])]
    rw [if_neg (by norm_num)]
  · norm_num

/-- C4 amended: a returned pair always satisfies `min < max`; it lies
within `globalBounds` provided both axes do (first and last element of
each axis inside `[glow, ghigh]`), which `coregister` validates before
calling — for axes outside the global bounds the result can leave them. -/
theorem findIntersection_bounds (first second : List ℚ) (glow ghigh : ℚ) :
    ∀ m M, findIntersection first second glow ghigh = .ok m M →
      m < M ∧
      (glow ≤ first.getD 0 0 → first.getLastD 0 ≤ ghigh →
        glow ≤ second.getD 0 0 → second.getLastD 0 ≤ ghigh →
        glow ≤ m ∧ M ≤ ghigh) := by
  intro m M h
  obtain ⟨-, -, -, hsu, hsd, hmM⟩ := findIntersection_ok_inv h
  have hpx1 : 0 ≤ pxSize first := abs_nonneg _
  have hpx2 : 0 ≤ pxSize second := abs_nonneg _
  have hfin : 0 ≤ min (pxSize first) (pxSize second) := le_min hpx1 hpx2
  obtain ⟨j, hj, hm, halm, -⟩ := snapUp_eq_some _ _ _ _ _ _ _ hsu
  obtain ⟨k, hk, hM, halM, -⟩ := snapDown_eq_some _ _ _ _ _ _ _ hsd
  refine ⟨hmM, ?_⟩
  intro hf0 hfl hs0 hsl
  constructor
  · -- glow ≤ m
    by_cases hv : glow ≤ initMin first second
    · have : (0 : ℚ) ≤ j * min (pxSize first) (pxSize second) :=
        mul_nonneg (Nat.cast_nonneg j) hfin
      rw [hm]
      linarith
    · push_neg at hv
      have hv0f : first.getD 0 0 - pxSize first / 2 ≤ initMin first second :=
        le_max_left _ _
      have hv0s : second.getD 0 0 - pxSize second / 2 ≤ initMin first second :=
        le_max_right _ _
      have hr1 : glow - initMin first second ≤ pxSize first / 2 := by linarith
      have hr2 : glow - initMin first second ≤ pxSize second / 2 := by linarith
      have hrpos : 0 < glow - initMin first second := by linarith
      have hp1pos : 0 < pxSize first := by linarith
      have hp2pos : 0 < pxSize second := by linarith
      have habs : |initMin first second - glow| = glow - initMin first second := by
        rw [abs_of_neg (show initMin first second - glow < 0 by linarith), neg_sub]
      have hne : initMin first second - glow ≠ 0 :=
        sub_ne_zero_of_ne (ne_of_lt hv)
      have hal0 : alignedLow (pxSize first) (pxSize second) glow
          (initMin first second) = false := by
        unfold alignedLow
        rw [modIsZero_eq_false_of_small hne (by rw [habs, abs_of_pos hp1pos]; linarith),
          modIsZero_eq_false_of_small hne (by rw [habs, abs_of_pos hp2pos]; linarith)]
        rfl
      rcases Nat.eq_zero_or_pos j with rfl | hj1
      · have hmv : m = initMin first second := by rw [hm]; push_cast; ring
        rw [hmv, hal0] at halm
        cases halm
      · have hjc : (1 : ℚ) ≤ (j : ℚ) := by exact_mod_cast hj1
        have h2r : 2 * (glow - initMin first second) ≤
            min (pxSize first) (pxSize second) :=
          le_min (by linarith) (by linarith)
        have hstep : min (pxSize first) (pxSize second) ≤
            (j : ℚ) * min (pxSize first) (pxSize second) := by
          nlinarith
        rw [hm]
        linarith
  · -- M ≤ ghigh
    by_cases hw : initMax first second ≤ ghigh
    · have : (0 : ℚ) ≤ k * min (pxSize first) (pxSize second) :=
        mul_nonneg (Nat.cast_nonneg k) hfin
      rw [hM]
      linarith
    · push_neg at hw
      have hw0f : initMax first second ≤ first.getLastD 0 + pxSize first / 2 :=
        min_le_left _ _
      have hw0s : initMax first second ≤ second.getLastD 0 + pxSize second / 2 :=
        min_le_right _ _
      have hr1 : initMax first second - ghigh ≤ pxSize first / 2 := by linarith
      have hr2 : initMax first second - ghigh ≤ pxSize second / 2 := by linarith
      have hrpos : 0 < initMax first second - ghigh := by linarith
      have hp1pos : 0 < pxSize first := by linarith
      have hp2pos : 0 < pxSize second := by linarith
      have habs : |ghigh - initMax first second| = initMax first second - ghigh := by
        rw [abs_of_neg (show ghigh - initMax first second < 0 by linarith), neg_sub]
      have hne : ghigh - initMax first second ≠ 0 :=
        sub_ne_zero_of_ne (ne_of_lt hw)
      have hal0 : alignedHigh (pxSize first) (pxSize second) ghigh
          (initMax first second) = false := by
        unfold alignedHigh
        rw [modIsZero_eq_false_of_small hne (by rw [habs, abs_of_pos hp1pos]; linarith),
          modIsZero_eq_false_of_small hne (by rw [habs, abs_of_pos hp2pos]; linarith)]
        rfl
      rcases Nat.eq_zero_or_pos k with rfl | hk1
      · have hMw : M = initMax first second := by rw [hM]; push_cast; ring
        rw [hMw, hal0] at halM
        cases halM
      · have hkc : (1 : ℚ) ≤ (k : ℚ) := by exact_mod_cast hk1
        have h2r : 2 * (initMax first second - ghigh) ≤
            min (pxSize first) (pxSize second) :=
          le_min (by linarith) (by linarith)
        have hstep : min (pxSize first) (pxSize second) ≤
            (k : ℚ) * min (pxSize first) (pxSize second) := by
          nlinarith
        rw [hM]
        linarith

/-- Witness for the amended C4: on the in-bounds axis −89.5, −88.5 with
global bounds (−90, 90) the call returns (−90, −88); the theorem yields
min < max and, the axis being within bounds, containment of both bounds. -/
theorem findIntersection_bounds_witness :
    findIntersection axLat axLat (-90) 90 = FIResult.ok (-90) (-88) ∧
    ((-90 : ℚ) < -88) ∧ ((-90 : ℚ) ≤ -90) ∧ ((-88 : ℚ) ≤ 90) := by
  have hok : findIntersection axLat axLat (-90) 90 = FIResult.ok (-90) (-88) := by
    have hpx : pxSize axLat = 1 := by norm_num [pxSize, axLat, abs]
    have hmin : initMin axLat axLat = -90 := by
      norm_num [initMin, axLat, pxSize, abs]
    have hmax : initMax axLat axLat = -88 := by
      norm_num [initMax, axLat, pxSize, abs]
    unfold findIntersection
    rw [if_neg (by decide)]
    dsimp only
    rw [hpx, hmin, hmax]
    rw [if_neg (by norm_num)]
    simp only
      [snapUp_exit (show alignedLow 1 1 (-90) (-90) = true by
          norm_num [alignedLow, modIsZero]),
        snapDown_exit (show alignedHigh 1 1 90 (-88) = true by
          norm_num [alignedHigh, modIsZero])]
    rw [if_neg (by norm_num)]
  have h := findIntersection_bounds axLat axLat (-90) 90 (-90) (-88) hok
  have hc := h.2 (by norm_num [axLat]) (by norm_num [axLat])
    (by norm_num [axLat]) (by norm_num [axLat])
  exact ⟨hok, h.1, hc.1, hc.2⟩

/-- C5 counterexample: on the identical axes −100.5, −99.5 with global
bounds (−90, 90), `_find_intersection` returns exactly the unclipped
initial bounds (−101, −99); the minimum lies outside the global bounds, so
the result is not `(X[0]-px/2, X[-1]+px/2)` clipped to `G` — no clipping
to the global bounds is ever applied. -/
theorem findIntersection_self_cex :
    findIntersection axOut2 axOut2 (-90) 90 = FIResult.ok (-101) (-99) ∧
      ((-101 : ℚ) < -90) ∧
      FIResult.ok (-101) (-99) ≠
        FIResult.ok (max (-101 : ℚ) (-90)) (min (-99 : ℚ) 90) := by
  refine ⟨?_, by norm_num, by norm_num⟩
  have hpx : pxSize axOut2 = 1 := by norm_num [pxSize, axOut2, abs]
  have hmin : initMin axOut2 axOut2 = -101 := by
    norm_num [initMin, axOut2, pxSize, abs]
  have hmax : initMax axOut2 axOut2 = -99 := by
    norm_num [initMax, axOut2, pxSize, abs]
  unfold findIntersection
  rw [if_neg (by decide)]
  dsimp only
  rw [hpx, hmin, hmax]
  rw [if_neg (by norm_num)]
  simp only
    [snapUp_exit (show alignedLow 1 1 (-90) (-101) = true by
        norm_num [alignedLow, modIsZero]),
      snapDown_exit (show alignedHigh 1 1 90 (-99) = true by
        norm_num [alignedHigh, modIsZero])]
  rw [if_neg (by norm_num)]

/-- C5 amended: with identical grids, whenever `_find_intersection`
returns a pair it is exactly `(X[0] - px/2, X[-1] + px/2)` — the initial
bounds, with no clipping to the global bounds applied (when the initial
bounds are not aligned to the grid, the call raises instead of returning). -/
theorem findIntersection_self (X : List ℚ) (glow ghigh : ℚ)
    (hX : 2 ≤ X.length) :
    ∀ m M, findIntersection X X glow ghigh = .ok m M →
      m = X.getD 0 0 - pxSize X / 2 ∧ M = X.getLastD 0 + pxSize X / 2 := by
  intro m M h
  obtain ⟨-, -, -, hsu, hsd, -⟩ := findIntersection_ok_inv h
  have hmin : initMin X X = X.getD 0 0 - pxSize X / 2 := max_self _
  have hmax : initMax X X = X.getLastD 0 + pxSize X / 2 := min_self _
  obtain ⟨j, hj, hm, halm, hless⟩ := snapUp_eq_some _ _ _ _ _ _ _ hsu
  obtain ⟨k, hk, hM, halM, hlessM⟩ := snapDown_eq_some _ _ _ _ _ _ _ hsd
  constructor
  · rcases Nat.eq_zero_or_pos j with rfl | hj1
    · rw [hm, hmin]
      push_cast
      ring
    · exfalso
      have h0 := hless 0 hj1
      have h0' : alignedLow (pxSize X) (pxSize X) glow (initMin X X) = false := by
        simpa using h0
      rw [hm, min_self] at halm
      have hinv : alignedLow (pxSize X) (pxSize X) glow
          (initMin X X + j * pxSize X) =
            alignedLow (pxSize X) (pxSize X) glow (initMin X X) := by
        unfold alignedLow
        rw [Bool.or_self, Bool.or_self,
          show initMin X X + j * pxSize X - glow =
            initMin X X - glow + j * pxSize X by ring,
          modIsZero_add_nat_mul]
      rw [hinv, h0'] at halm
      cases halm
  · rcases Nat.eq_zero_or_pos k with rfl | hk1
    · rw [hM, hmax]
      push_cast
      ring
    · exfalso
      have h0 := hlessM 0 hk1
      have h0' : alignedHigh (pxSize X) (pxSize X) ghigh (initMax X X) = false := by
        simpa using h0
      rw [hM, min_self] at halM
      have hinv : alignedHigh (pxSize X) (pxSize X) ghigh
          (initMax X X - k * pxSize X) =
            alignedHigh (pxSize X) (pxSize X) ghigh (initMax X X) := by
        unfold alignedHigh
        rw [Bool.or_self, Bool.or_self,
          show ghigh - (initMax X X - k * pxSize X) =
            ghigh - initMax X X + k * pxSize X by ring,
          modIsZero_add_nat_mul]
      rw [hinv, h0'] at halM
      cases halM

/-- Witness for the amended C5: on the axis −89.5, −88.5 with global
bounds (−90, 90) the call returns (−90, −88), and the theorem identifies
that pair with the unclipped initial bounds. -/
theorem findIntersection_self_witness :
    (-90 : ℚ) = axLat.getD 0 0 - pxSize axLat / 2 ∧
    (-88 : ℚ) = axLat.getLastD 0 + pxSize axLat / 2 := by
  have hok : findIntersection axLat axLat (-90) 90 = FIResult.ok (-90) (-88) := by
    have hpx : pxSize axLat = 1 := by norm_num [pxSize, axLat, abs]
    have hmin : initMin axLat axLat = -90 := by
      norm_num [initMin, axLat, pxSize, abs]
    have hmax : initMax axLat axLat = -88 := by
      norm_num [initMax, axLat, pxSize, abs]
    unfold findIntersection
    rw [if_neg (by decide)]
    dsimp only
    rw [hpx, hmin, hmax]
    rw [if_neg (by norm_num)]
    simp only
      [snapUp_exit (show alignedLow 1 1 (-90) (-90) = true by
          norm_num [alignedLow, modIsZero]),
        snapDown_exit (show alignedHigh 1 1 90 (-88) = true by
          norm_num [alignedHigh, modIsZero])]
    rw [if_neg (by norm_num)]
  exact findIntersection_self axLat (-90) 90 (by decide) (-90) (-88) hok

/-- C6: on any axis with at least two elements the three grid checks
return a boolean (no index error), and that boolean is `true` exactly when
the corresponding mathematical property holds — equidistance (all
consecutive absolute differences equal the first, compared exactly, with
no tolerance), pixel registration relative to the origin (the half-pixel
offset of the first value is an exact integer multiple of the nonzero
pixel size), and bound containment; consequently a conforming axis passes
all three checks, and perturbing the axis so that a property fails makes
the corresponding check return `false`. -/
theorem gridValidator_characterization (a : List ℚ) (origin lowBound : ℚ)
    (h2 : 2 ≤ a.length) :
    (∃ b : Bool, isEquidistant a = some b ∧ (b = true ↔ EquidistantP a)) ∧
    (∃ b : Bool, isPixelRegistered a origin = some b ∧
      (b = true ↔ PixelRegisteredP a origin)) ∧
    (∃ b : Bool, withinBounds a lowBound = some b ∧
      (b = true ↔ WithinBoundsP a lowBound)) := by
  have hg : ¬(a.length < 2) := by omega
  have hg1 : ¬(a.length < 1) := by omega
  refine ⟨⟨(List.range (a.length - 1)).all fun i =>
      |a.getD (i + 1) 0 - a.getD i 0| == pxSize a, ?_, ?_⟩,
    ⟨modIsZero (a.getD 0 0 - pxSize a / 2 - origin) (pxSize a), ?_, ?_⟩,
    ⟨decide (lowBound ≤ a.getD 0 0) && decide (a.getLastD 0 ≤ |lowBound|), ?_, ?_⟩⟩
  · rw [isEquidistant, if_neg hg]
  · rw [List.all_eq_true]
    unfold EquidistantP
    constructor
    · intro h i hi
      have hx := h i (List.mem_range.mpr (by omega))
      exact beq_iff_eq.mp hx
    · intro h i hi
      rw [beq_iff_eq]
      exact h i (by have := List.mem_range.mp hi; omega)
  · rw [isPixelRegistered, if_neg hg]
  · exact modIsZero_iff
  · rw [withinBounds, if_neg hg1]
  · rw [Bool.and_eq_true, decide_eq_true_iff, decide_eq_true_iff]
    exact Iff.rfl

/-- Witness for C6: the theorem applied to the conforming axis
−89.5, −88.5 with origin and lower bound −90. -/
theorem gridValidator_characterization_witness :
    (∃ b : Bool, isEquidistant axLat = some b ∧ (b = true ↔ EquidistantP axLat)) ∧
    (∃ b : Bool, isPixelRegistered axLat (-90) = some b ∧
      (b = true ↔ PixelRegisteredP axLat (-90))) ∧
    (∃ b : Bool, withinBounds axLat (-90) = some b ∧
      (b = true ↔ WithinBoundsP axLat (-90))) :=
  gridValidator_characterization axLat (-90) (-90) (by decide)

lemma checkGrid_eq_none_iff (ds : String) (a : List ℚ) (low : ℚ) :
    checkGrid ds a low = none ↔
      withinBounds a low = some true ∧ isEquidistant a = some true ∧
        isPixelRegistered a low = some true := by
  unfold checkGrid
  rcases hwb : withinBounds a low with - | b
  · simp
  · cases b
    · simp
    · rcases heq : isEquidistant a with - | b2
      · simp
      · cases b2
        · simp
        · rcases hpr : isPixelRegistered a low with - | b3
          · simp
          · cases b3 <;> simp

lemma checkGrid_eq_some (ds : String) (a : List ℚ) (low : ℚ) (e : CoregError) :
    checkGrid ds a low = some e →
      e = .indexError ∨
      (e = .boundsError ds low (a.getD 0 0) (a.getLastD 0) ∧
        withinBounds a low = some false) ∨
      (e = .notEquidistant ds ∧ isEquidistant a = some false) ∨
      (e = .notPixelRegistered ds ∧ isPixelRegistered a low = some false) := by
  unfold checkGrid
  rcases hwb : withinBounds a low with - | b
  · intro h
    simp only [Option.some.injEq] at h
    exact Or.inl h.symm
  · cases b
    · intro h
      simp only [Option.some.injEq] at h
      exact Or.inr (Or.inl ⟨h.symm, rfl⟩)
    · rcases heq : isEquidistant a with - | b2
      · intro h
        simp only [Option.some.injEq] at h
        exact Or.inl h.symm
      · cases b2
        · intro h
          simp only [Option.some.injEq] at h
          exact Or.inr (Or.inr (Or.inl ⟨h.symm, rfl⟩))
        · rcases hpr : isPixelRegistered a low with - | b3
          · intro h
            simp only [Option.some.injEq] at h
            exact Or.inl h.symm
          · cases b3
            · intro h
              simp only [Option.some.injEq] at h
              exact Or.inr (Or.inr (Or.inr ⟨h.symm, rfl⟩))
            · intro h
              cases h

lemma checkVars_eq_none_iff :
    ∀ vars : List VarInfo,
      checkVars vars = none ↔ ∀ v ∈ vars, isValidArray v.dims = true := by
  intro vars
  induction vars with
  | nil => simp [checkVars]
  | cons v rest ih =>
    rw [checkVars]
    by_cases hv : isValidArray v.dims
    · rw [if_pos hv, ih]
      simp [hv]
    · rw [if_neg hv]
      simp [hv]

lemma checkVars_eq_some :
    ∀ (vars : List VarInfo) (e : CoregError),
      checkVars vars = some e →
        ∃ v ∈ vars, e = .invalidVariable v.name v.dims ∧
          isValidArray v.dims = false := by
  intro vars
  induction vars with
  | nil =>
    intro e h
    cases h
  | cons v rest ih =>
    intro e h
    rw [checkVars] at h
    by_cases hv : isValidArray v.dims
    · rw [if_pos hv] at h
      obtain ⟨w, hw, he⟩ := ih e h
      exact ⟨w, List.mem_cons_of_mem _ hw, he⟩
    · rw [if_neg hv] at h
      injection h with h
      exact ⟨v, List.mem_cons_self _ _, h.symm, Bool.eq_false_iff.mpr hv⟩

lemma coregister_ok_iff (mLat mLon sLat sLon : List ℚ) (vars : List VarInfo) :
    (∃ r, coregister mLat mLon sLat sLon vars = .ok r) ↔
      checkGrid "slave" sLat (-90) = none ∧
      checkGrid "slave" sLon (-180) = none ∧
      checkGrid "master" mLat (-90) = none ∧
      checkGrid "master" mLon (-180) = none ∧
      checkVars vars = none := by
  unfold coregister
  rcases h1 : checkGrid "slave" sLat (-90) with - | e1
  · rcases h2 : checkGrid "slave" sLon (-180) with - | e2
    · rcases h3 : checkGrid "master" mLat (-90) with - | e3
      · rcases h4 : checkGrid "master" mLon (-180) with - | e4
        · rcases h5 : checkVars vars with - | e5
          · simp
          · simp
        · simp
      · simp
    · simp
  · simp

/-- C7 amended: `coregister` runs the bounds, equidistance and
pixel-registration checks on all four axes (slave lat, slave lon, master
lat, master lon) and the shape check on every slave variable before
resampling is invoked: resampling is reached exactly when every check
passes, and otherwise the call aborts with an error naming the failing
dataset and check (bounds errors also carry the violated bound and the
axis endpoints; equidistance and pixel-registration errors name only the
dataset, not the axis), with no resampled output. -/
theorem coregister_validation (mLat mLon sLat sLon : List ℚ)
    (vars : List VarInfo) :
    ((∃ r, coregister mLat mLon sLat sLon vars = .ok r) ↔
      ((∀ g ∈ gridsOf mLat mLon sLat sLon,
          withinBounds g.2.1 g.2.2 = some true ∧
          isEquidistant g.2.1 = some true ∧
          isPixelRegistered g.2.1 g.2.2 = some true) ∧
        ∀ v ∈ vars, isValidArray v.dims = true)) ∧
    (∀ e, coregister mLat mLon sLat sLon vars = .error e →
      e = .indexError ∨
      (∃ g ∈ gridsOf mLat mLon sLat sLon,
        (e = .boundsError g.1 g.2.2 (g.2.1.getD 0 0) (g.2.1.getLastD 0) ∧
          withinBounds g.2.1 g.2.2 = some false) ∨
        (e = .notEquidistant g.1 ∧ isEquidistant g.2.1 = some false) ∨
        (e = .notPixelRegistered g.1 ∧
          isPixelRegistered g.2.1 g.2.2 = some false)) ∨
      (∃ v ∈ vars, e = .invalidVariable v.name v.dims ∧
        isValidArray v.dims = false)) := by
  constructor
  · rw [coregister_ok_iff]
    constructor
    · rintro ⟨hc1, hc2, hc3, hc4, hcv⟩
      refine ⟨?_, (checkVars_eq_none_iff vars).mp hcv⟩
      intro g hg
      simp only [gridsOf, List.mem_cons, List.not_mem_nil, or_false] at hg
      rcases hg with rfl | rfl | rfl | rfl
      · exact (checkGrid_eq_none_iff _ _ _).mp hc1
      · exact (checkGrid_eq_none_iff _ _ _).mp hc2
      · exact (checkGrid_eq_none_iff _ _ _).mp hc3
      · exact (checkGrid_eq_none_iff _ _ _).mp hc4
    · rintro ⟨hgrids, hvars⟩
      refine ⟨(checkGrid_eq_none_iff _ _ _).mpr
          (hgrids ("slave", sLat, -90) (by simp [gridsOf])),
        (checkGrid_eq_none_iff _ _ _).mpr
          (hgrids ("slave", sLon, -180) (by simp [gridsOf])),
        (checkGrid_eq_none_iff _ _ _).mpr
          (hgrids ("master", mLat, -90) (by simp [gridsOf])),
        (checkGrid_eq_none_iff _ _ _).mpr
          (hgrids ("master", mLon, -180) (by simp [gridsOf])),
        (checkVars_eq_none_iff vars).mpr hvars⟩
  · intro e h
    unfold coregister at h
    have hm1 : (("slave", sLat, (-90 : ℚ)) : String × List ℚ × ℚ) ∈
        gridsOf mLat mLon sLat sLon := by simp [gridsOf]
    have hm2 : (("slave", sLon, (-180 : ℚ)) : String × List ℚ × ℚ) ∈
        gridsOf mLat mLon sLat sLon := by simp [gridsOf]
    have hm3 : (("master", mLat, (-90 : ℚ)) : String × List ℚ × ℚ) ∈
        gridsOf mLat mLon sLat sLon := by simp [gridsOf]
    have hm4 : (("master", mLon, (-180 : ℚ)) : String × List ℚ × ℚ) ∈
        gridsOf mLat mLon sLat sLon := by simp [gridsOf]
    rcases hc1 : checkGrid "slave" sLat (-90) with - | e1
    · rcases hc2 : checkGrid "slave" sLon (-180) with - | e2
      · rcases hc3 : checkGrid "master" mLat (-90) with - | e3
        · rcases hc4 : checkGrid "master" mLon (-180) with - | e4
          · rcases hc5 : checkVars vars with - | e5
            · simp only [hc1, hc2, hc3, hc4, hc5] at h
              cases h
            · simp only [hc1, hc2, hc3, hc4, hc5] at h
              injection h with h
              subst h
              obtain ⟨v, hv, he, hval⟩ := checkVars_eq_some vars e5 hc5
              exact Or.inr (Or.inr ⟨v, hv, he, hval⟩)
          · simp only [hc1, hc2, hc3, hc4] at h
            injection h with h
            subst h
            rcases checkGrid_eq_some _ _ _ _ hc4 with he | ⟨he, hf⟩ | ⟨he, hf⟩ | ⟨he, hf⟩
            · exact Or.inl he
            · exact Or.inr (Or.inl ⟨_, hm4, Or.inl ⟨he, hf⟩⟩)
            · exact Or.inr (Or.inl ⟨_, hm4, Or.inr (Or.inl ⟨he, hf⟩)⟩)
            · exact Or.inr (Or.inl ⟨_, hm4, Or.inr (Or.inr ⟨he, hf⟩)⟩)
        · simp only [hc1, hc2, hc3] at h
          injection h with h
          subst h
          rcases checkGrid_eq_some _ _ _ _ hc3 with he | ⟨he, hf⟩ | ⟨he, hf⟩ | ⟨he, hf⟩
          · exact Or.inl he
          · exact Or.inr (Or.inl ⟨_, hm3, Or.inl ⟨he, hf⟩⟩)
          · exact Or.inr (Or.inl ⟨_, hm3, Or.inr (Or.inl ⟨he, hf⟩)⟩)
          · exact Or.inr (Or.inl ⟨_, hm3, Or.inr (Or.inr ⟨he, hf⟩)⟩)
      · simp only [hc1, hc2] at h
        injection h with h
        subst h
        rcases checkGrid_eq_some _ _ _ _ hc2 with he | ⟨he, hf⟩ | ⟨he, hf⟩ | ⟨he, hf⟩
        · exact Or.inl he
        · exact Or.inr (Or.inl ⟨_, hm2, Or.inl ⟨he, hf⟩⟩)
        · exact Or.inr (Or.inl ⟨_, hm2, Or.inr (Or.inl ⟨he, hf⟩)⟩)
        · exact Or.inr (Or.inl ⟨_, hm2, Or.inr (Or.inr ⟨he, hf⟩)⟩)
    · simp only [hc1] at h
      injection h with h
      subst h
      rcases checkGrid_eq_some _ _ _ _ hc1 with he | ⟨he, hf⟩ | ⟨he, hf⟩ | ⟨he, hf⟩
      · exact Or.inl he
      · exact Or.inr (Or.inl ⟨_, hm1, Or.inl ⟨he, hf⟩⟩)
      · exact Or.inr (Or.inl ⟨_, hm1, Or.inr (Or.inl ⟨he, hf⟩)⟩)
      · exact Or.inr (Or.inl ⟨_, hm1, Or.inr (Or.inr ⟨he, hf⟩)⟩)

/-- C7 counterexample: a slave dataset whose lat axis is not equidistant
and one whose lon axis is not equidistant produce the very same error
value (`ValueError('The slave dataset grid is not equidistant ...')`), so
the raised error does not identify which axis failed. -/
theorem coregister_error_no_axis_cex :
    coregister axLat axLon axNonEq axLon [] =
        .error (.notEquidistant "slave") ∧
    coregister axLat axLon axLat axNonEqLon [] =
        .error (.notEquidistant "slave") ∧
    coregister axLat axLon axNonEq axLon [] =
        coregister axLat axLon axLat axNonEqLon [] := by
  have hbadLat : checkGrid "slave" axNonEq (-90) =
      some (.notEquidistant "slave") := by
    have hwb : withinBounds axNonEq (-90) = some true := by
      norm_num [withinBounds, axNonEq, abs]
    have heq : isEquidistant axNonEq = some false := by
      norm_num [isEquidistant, axNonEq, pxSize, abs, List.range_succ]
    unfold checkGrid
    rw [hwb, heq]
  have hgoodLat : checkGrid "slave" axLat (-90) = none := by
    refine (checkGrid_eq_none_iff _ _ _).mpr ⟨?_, ?_, ?_⟩
    · norm_num [withinBounds, axLat, abs]
    · norm_num [isEquidistant, axLat, pxSize, abs, List.range_succ]
    · norm_num [isPixelRegistered, axLat, pxSize, abs, modIsZero]
  have hbadLon : checkGrid "slave" axNonEqLon (-180) =
      some (.notEquidistant "slave") := by
    have hwb : withinBounds axNonEqLon (-180) = some true := by
      norm_num [withinBounds, axNonEqLon, abs]
    have heq : isEquidistant axNonEqLon = some false := by
      norm_num [isEquidistant, axNonEqLon, pxSize, abs, List.range_succ]
    unfold checkGrid
    rw [hwb, heq]
  have h1 : coregister axLat axLon axNonEq axLon [] =
      .error (.notEquidistant "slave") := by
    unfold coregister
    rw [hbadLat]
  have h2 : coregister axLat axLon axLat axNonEqLon [] =
      .error (.notEquidistant "slave") := by
    unfold coregister
    rw [hgoodLat, hbadLon]
  exact ⟨h1, h2, h1.trans h2.symm⟩

/-- Witness for the amended C7: the theorem applied to conforming
one-degree master and slave axes and an empty variable list. -/
theorem coregister_validation_witness :
    ((∃ r, coregister axLat axLon axLat axLon ([] : List VarInfo) = .ok r) ↔
      ((∀ g ∈ gridsOf axLat axLon axLat axLon,
          withinBounds g.2.1 g.2.2 = some true ∧
          isEquidistant g.2.1 = some true ∧
          isPixelRegistered g.2.1 g.2.2 = some true) ∧
        ∀ v ∈ ([] : List VarInfo), isValidArray v.dims = true)) ∧
    (∀ e, coregister axLat axLon axLat axLon ([] : List VarInfo) = .error e →
      e = .indexError ∨
      (∃ g ∈ gridsOf axLat axLon axLat axLon,
        (e = .boundsError g.1 g.2.2 (g.2.1.getD 0 0) (g.2.1.getLastD 0) ∧
          withinBounds g.2.1 g.2.2 = some false) ∨
        (e = .notEquidistant g.1 ∧ isEquidistant g.2.1 = some false) ∨
        (e = .notPixelRegistered g.1 ∧
          isPixelRegistered g.2.1 g.2.2 = some false)) ∨
      (∃ v ∈ ([] : List VarInfo), e = .invalidVariable v.name v.dims ∧
        isValidArray v.dims = false)) :=
  coregister_validation axLat axLon axLat axLon []

/-- C8: `_resample_array` relabels the lat/lon coordinates with the
supplied target axes while preserving the variable's name, dimension
names, attributes and original time coordinate unchanged, resampling each
time slice through the external kernel at the target width and height. -/
theorem resampleArray_frame
    (resample2d : List (List ℚ) → Nat → Nat → Nat → Nat → List (List ℚ))
    (array : DataArray) (lon lat : List ℚ) (methodUs methodDs : Nat) :
    (resampleArray resample2d array lon lat methodUs methodDs).name =
        array.name ∧
    (resampleArray resample2d array lon lat methodUs methodDs).dims =
        array.dims ∧
    (resampleArray resample2d array lon lat methodUs methodDs).attrs =
        array.attrs ∧
    (resampleArray resample2d array lon lat methodUs methodDs).time =
        array.time ∧
    (resampleArray resample2d array lon lat methodUs methodDs).lat = lat ∧
    (resampleArray resample2d array lon lat methodUs methodDs).lon = lon ∧
    (resampleArray resample2d array lon lat methodUs methodDs).data =
      array.data.map fun slice =>
        resample2d slice lon.length lat.length methodDs methodUs :=
  ⟨rfl, rfl, rfl, rfl, rfl, rfl, rfl⟩

/-- C9: `_is_equidistant`, `_is_pixel_registered` and
`_find_intersection` index elements 0, 1 and −1 of their axis arguments
unconditionally: on axes with at least two elements they produce a
boolean or a bounds result, and on a shorter axis they fail with an
out-of-bounds access instead. -/
theorem validators_index_bounds (a b : List ℚ) (origin glow ghigh : ℚ) :
    (isEquidistant a = none ↔ a.length < 2) ∧
    (isPixelRegistered a origin = none ↔ a.length < 2) ∧
    (findIntersection a b glow ghigh = .indexError ↔
      (a.length < 2 ∨ b.length < 2)) := by
  refine ⟨?_, ?_, ?_⟩
  · by_cases h : a.length < 2
    · rw [isEquidistant, if_pos h]
      simp [h]
    · rw [isEquidistant, if_neg h]
      simp [h]
  · by_cases h : a.length < 2
    · rw [isPixelRegistered, if_pos h]
      simp [h]
    · rw [isPixelRegistered, if_neg h]
      simp [h]
  · by_cases hg : a.length < 2 ∨ b.length < 2
    · unfold findIntersection
      rw [if_pos hg]
      simp [hg]
    · unfold findIntersection
      rw [if_neg hg]
      dsimp only
      constructor
      · intro hcon
        exfalso
        split at hcon
        · cases hcon
        · split at hcon
          · cases hcon
          · split at hcon
            · cases hcon
            · split at hcon
              · cases hcon
              · cases hcon
      · intro hcon
        exact absurd hcon hg

/-- C10: the non-monotonic axis −88.5, −89.5, −88.5 (values going down and
back up) has all consecutive absolute differences equal, so it passes the
equidistance check as well as the pixel-registration and bounds checks —
`coregister`'s grid validation never checks monotonicity, and a dataset
with this latitude axis passes the whole validation phase and reaches
resampling. -/
theorem nonMonotonic_axis_passes :
    isEquidistant axNonMono = some true ∧
    isPixelRegistered axNonMono (-90) = some true ∧
    withinBounds axNonMono (-90) = some true ∧
    axNonMono.getD 1 0 < axNonMono.getD 0 0 ∧
    axNonMono.getD 1 0 < axNonMono.getD 2 0 ∧
    checkGrid "slave" axNonMono (-90) = none ∧
    coregister axLat axLon axNonMono axLon [] =
      .ok ⟨axLat, axLon, axNonMono, axLon, []⟩ := by
  have heqd : isEquidistant axNonMono = some true := by
    norm_num [isEquidistant, axNonMono, pxSize, abs, List.range_succ]
  have hpr : isPixelRegistered axNonMono (-90) = some true := by
    norm_num [isPixelRegistered, axNonMono, pxSize, abs, modIsZero]
  have hwb : withinBounds axNonMono (-90) = some true := by
    norm_num [withinBounds, axNonMono, abs]
  have hnm : checkGrid "slave" axNonMono (-90) = none :=
    (checkGrid_eq_none_iff _ _ _).mpr ⟨hwb, heqd, hpr⟩
  have hLat90 : checkGrid "master" axLat (-90) = none := by
    refine (checkGrid_eq_none_iff _ _ _).mpr ⟨?_, ?_, ?_⟩
    · norm_num [withinBounds, axLat, abs]
    · norm_num [isEquidistant, axLat, pxSize, abs, List.range_succ]
    · norm_num [isPixelRegistered, axLat, pxSize, abs, modIsZero]
  have hLonS : checkGrid "slave" axLon (-180) = none := by
    refine (checkGrid_eq_none_iff _ _ _).mpr ⟨?_, ?_, ?_⟩
    · norm_num [withinBounds, axLon, abs]
    · norm_num [isEquidistant, axLon, pxSize, abs, List.range_succ]
    · norm_num [isPixelRegistered, axLon, pxSize, abs, modIsZero]
  have hLonM : checkGrid "master" axLon (-180) = none := by
    refine (checkGrid_eq_none_iff _ _ _).mpr ⟨?_, ?_, ?_⟩
    · norm_num [withinBounds, axLon, abs]
    · norm_num [isEquidistant, axLon, pxSize, abs, List.range_succ]
    · norm_num [isPixelRegistered, axLon, pxSize, abs, modIsZero]
  refine ⟨heqd, hpr, hwb, by norm_num [axNonMono], by norm_num [axNonMono],
    hnm, ?_⟩
  unfold coregister
  rw [hnm, hLonS, hLat90, hLonM]
  rfl

end Coreg
